import Mathlib

/-!
Verification of the readwise-mcp-server synchronization engine (`server.py`).

The development shallowly embeds the Python source:

* Timestamps are modelled as integers (seconds since the epoch, UTC); a
  calendar date is the integer day number `t.fdiv 86400`, and the midnight
  timestamp of day `d` is `d * 86400`.  `strftime`/`isoformat` renderings
  that only serve as filename components are modelled by `toString`, an
  injective rendering, which is all the code relies on.
* The network is an environment: a function from the index of the request
  to the response the server gives.  Sleeps and page fetches are recorded in
  explicit traces where a claim is about them.
* Python exceptions are modelled with `Except`/`Option`; every tool's
  outer `try/except` becomes a total Lean function returning a structured
  result together with the final on-disk state.
-/

-- ===========================================================================
-- Rate limit configuration (constants from the top of server.py)
-- ===========================================================================

def RATE_LIMIT_MAX_RETRIES : Nat := 3

def RATE_LIMIT_BASE_DELAY : Int := 5

def RATE_LIMIT_MAX_DELAY : Int := 60

def RATE_LIMIT_BACKOFF_MULTIPLIER : Int := 2

-- ===========================================================================
-- Synced-range tracker: optimize_backfill
-- ===========================================================================

/-- A synced range as stored in the state file: `{start, end, doc_count,
verified_at}`.  The `end` field of the source is written `«end»` because
`end` is a Lean keyword. -/
structure SyncedRange where
  start : Int
  «end» : Int
  doc_count : Nat
  verified_at : Int
deriving DecidableEq, Repr

/-- The `for range_item in ranges` loop of `optimize_backfill`: first range
covering the target wins (false, None); first range starting after the
target wins (true, None); falling off the end is case 3, (true, None). -/
def optimizeLoop (target_ts : Int) : List SyncedRange → Bool × Option Int
  | [] => (true, none)
  | r :: rs =>
    if r.start ≤ target_ts ∧ target_ts ≤ r.«end» then (false, none)
    else if target_ts < r.start then (true, none)
    else optimizeLoop target_ts rs

/-- `optimize_backfill(target_date, synced_ranges)` from server.py.  The
target date string has already been converted to the timestamp of its
midnight (`target_date + "T00:00:00+00:00"`), so the model takes the
timestamp directly.  Python's `sorted(..., key=lambda r: r['start'])` is a
stable ascending sort by `start`; `List.insertionSort` is the same stable
sort. -/
def optimize_backfill (target_ts : Int) (synced_ranges : List SyncedRange) :
    Bool × Option Int :=
  match synced_ranges with
  | [] => (true, none)
  | _ :: _ =>
    optimizeLoop target_ts
      (List.insertionSort (fun a b => a.start ≤ b.start) synced_ranges)

-- ===========================================================================
-- Rate-limited client: fetch_api
-- ===========================================================================

/-- Outcome of one HTTP request, as the retry loop of `fetch_api`
distinguishes them. -/
inductive RetryHint where
  /-- Retry-After header that `int()` parses to `n`. -/
  | numeric (n : Int)
  /-- Retry-After header present but not an integer (e.g. an HTTP date). -/
  | httpDate
deriving DecidableEq, Repr

/-- Response of the server to a single `requests.get`.  A missing or empty
Retry-After header is `none` (both are falsy in the source). -/
inductive ApiResp (α : Type) where
  | ok (body : α)
  | tooMany (retryAfter : Option RetryHint)
  | httpErr (code : Nat)
  | netErr
deriving DecidableEq, Repr

/-- Errors `fetch_api` raises to its caller. -/
inductive Failure where
  /-- 429 retries exhausted: the last HTTPError is re-raised. -/
  | rateLimited
  /-- any HTTP error status other than 429 (no retry). -/
  | httpStatus (code : Nat)
  /-- timeout / connection errors (no retry). -/
  | transport
  /-- `datetime` parsing of a document's `saved_at` raised (backfill loop). -/
  | badDate
deriving DecidableEq, Repr

/-- Delay computation of `fetch_api` for a 429 on attempt `attempt`
(0-based): a parseable Retry-After is used, otherwise exponential backoff
`5 * 2 ^ attempt`; either way the result is capped by
`min(delay, RATE_LIMIT_MAX_DELAY)`. -/
def computeDelay (hint : Option RetryHint) (attempt : Nat) : Int :=
  let delay : Int :=
    match hint with
    | some (.numeric n) => n
    | some .httpDate =>
      RATE_LIMIT_BASE_DELAY * RATE_LIMIT_BACKOFF_MULTIPLIER ^ attempt
    | none => RATE_LIMIT_BASE_DELAY * RATE_LIMIT_BACKOFF_MULTIPLIER ^ attempt
  min delay RATE_LIMIT_MAX_DELAY

/-- The `for attempt in range(RATE_LIMIT_MAX_RETRIES + 1)` loop of
`fetch_api`.  `env i` is the server's response to the `i`-th request.  The
result is the list of sleeps performed (in order) and the final outcome.
`fuel` is the number of loop iterations still allowed; `fetch_api` starts
it at `RATE_LIMIT_MAX_RETRIES + 1`, and since a retry only happens while
`attempt < RATE_LIMIT_MAX_RETRIES`, the fuel never actually runs out. -/
def fetchFrom (env : Nat → ApiResp α) : Nat → Nat → List Int × Except Failure α
  | 0, _ => ([], .error .rateLimited)
  | fuel + 1, attempt =>
    match env attempt with
    | .ok b => ([], .ok b)
    | .httpErr c => ([], .error (.httpStatus c))
    | .netErr => ([], .error .transport)
    | .tooMany hint =>
      if attempt < RATE_LIMIT_MAX_RETRIES then
        let rest := fetchFrom env fuel (attempt + 1)
        (computeDelay hint attempt :: rest.1, rest.2)
      else
        ([], .error .rateLimited)

/-- `fetch_api` of server.py: up to `RATE_LIMIT_MAX_RETRIES` retries after
the first call, sleeping between attempts, never after the last. -/
def fetch_api (env : Nat → ApiResp α) : List Int × Except Failure α :=
  fetchFrom env (RATE_LIMIT_MAX_RETRIES + 1) 0

-- ===========================================================================
-- Tracker lemmas
-- ===========================================================================

lemma optimizeLoop_snd_eq_none (t : Int) (l : List SyncedRange) :
    (optimizeLoop t l).2 = none := by
  induction l with
  | nil => rfl
  | cons r rs ih =>
    unfold optimizeLoop
    split
    · rfl
    · split
      · rfl
      · exact ih

lemma optimize_backfill_snd_eq_none (t : Int) (l : List SyncedRange) :
    (optimize_backfill t l).2 = none := by
  cases l with
  | nil => rfl
  | cons r rs => exact optimizeLoop_snd_eq_none t _

/-- C1: for every target `d` strictly before a range's start,
`optimize_backfill d [R] = (true, None)` — proceed with no lower-bound
filter — and for every range list in which some range starts after `d`
the tracker never returns a lower bound (in particular never `(true,
R.end)`): the second component is `None`. -/
theorem claim_C1 :
    (∀ (t : Int) (R : SyncedRange), t < R.start →
      optimize_backfill t [R] = (true, none)) ∧
    (∀ (t : Int) (L : List SyncedRange), (∃ R ∈ L, t < R.start) →
      (optimize_backfill t L).2 = none) := by
  constructor
  · intro t R h
    have h1 : ¬(R.start ≤ t ∧ t ≤ R.«end») := by omega
    simp [optimize_backfill, List.insertionSort, List.orderedInsert,
      optimizeLoop, h1, h]
  · intro t L _
    exact optimize_backfill_snd_eq_none t L

theorem claim_C1_witness :
    ((0 : Int) < 5 ∧
      optimize_backfill 0 [⟨5, 10, 3, 11⟩] = (true, none)) ∧
    ((∃ R ∈ [(⟨5, 10, 3, 11⟩ : SyncedRange)], (0 : Int) < R.start) ∧
      (optimize_backfill 0 [⟨5, 10, 3, 11⟩]).2 = none) :=
  ⟨⟨by decide, claim_C1.1 0 ⟨5, 10, 3, 11⟩ (by decide)⟩,
   ⟨⟨⟨5, 10, 3, 11⟩, by decide, by decide⟩,
    claim_C1.2 0 [⟨5, 10, 3, 11⟩] ⟨⟨5, 10, 3, 11⟩, by decide, by decide⟩⟩⟩

/-- C3: a target covered by a range (`R.start ≤ d ≤ R.end`) yields
`(false, None)`: no work proceeds. -/
theorem claim_C3 (t : Int) (R : SyncedRange)
    (h1 : R.start ≤ t) (h2 : t ≤ R.«end») :
    optimize_backfill t [R] = (false, none) := by
  simp [optimize_backfill, List.insertionSort, List.orderedInsert,
    optimizeLoop, h1, h2]

theorem claim_C3_witness :
    (5 : Int) ≤ 7 ∧ (7 : Int) ≤ 10 ∧
      optimize_backfill 7 [⟨5, 10, 3, 11⟩] = (false, none) :=
  ⟨by decide, by decide, claim_C3 7 ⟨5, 10, 3, 11⟩ (by decide) (by decide)⟩

-- ===========================================================================
-- Client claims
-- ===========================================================================

/-- C4, counterexample: a 429 whose Retry-After parses to `100` is slept
for `min(100, 60) = 60` seconds, not 100 — the hint is not used verbatim
for every `n`. -/
theorem claim_C4_cex :
    (fetch_api (fun i =>
        if i = 0 then ApiResp.tooMany (some (.numeric 100))
        else ApiResp.ok 7)).1 = [60] ∧
    (fetch_api (fun i =>
        if i = 0 then ApiResp.tooMany (some (.numeric 100))
        else ApiResp.ok 7)).1 ≠ [100] := by
  constructor
  · rfl
  · decide

/-- C4, amended: a parseable non-negative Retry-After `n` is used after
capping at `RATE_LIMIT_MAX_DELAY`: the client sleeps exactly `min n 60`
seconds before the next retry (so verbatim exactly when `n ≤ 60`). -/
theorem claim_C4 (n : Int) (b : Nat) (env : Nat → ApiResp Nat)
    (hn : 0 ≤ n)
    (h0 : env 0 = .tooMany (some (.numeric n)))
    (h1 : env 1 = .ok b) :
    fetch_api env = ([min n 60], .ok b) := by
  have : computeDelay (some (.numeric n)) 0 = min n 60 := by
    simp [computeDelay, RATE_LIMIT_MAX_DELAY]
  simp [fetch_api, fetchFrom, h0, h1, RATE_LIMIT_MAX_RETRIES, this]

theorem claim_C4_witness :
    (0 : Int) ≤ 100 ∧
    fetch_api (fun i =>
        if i = 0 then ApiResp.tooMany (some (.numeric 100))
        else ApiResp.ok 7) = ([min (100 : Int) 60], .ok 7) :=
  ⟨by decide,
   claim_C4 100 7 _ (by decide) (by decide) (by decide)⟩

/-- C6: three consecutive 429s without a Retry-After hint produce exactly
the sleep sequence `[5, 10, 20]` (base 5s, multiplier 2, attempt-indexed),
and every delay the client ever computes is at most 60 seconds. -/
theorem claim_C6 :
    fetch_api (fun _ => (ApiResp.tooMany none : ApiResp Nat)) =
      ([5, 10, 20], .error .rateLimited) ∧
    ∀ (hint : Option RetryHint) (attempt : Nat),
      computeDelay hint attempt ≤ 60 := by
  constructor
  · rfl
  · intro hint attempt
    have : RATE_LIMIT_MAX_DELAY = 60 := rfl
    calc computeDelay hint attempt ≤ RATE_LIMIT_MAX_DELAY := by
          simp [computeDelay]
      _ = 60 := this

-- ===========================================================================
-- Time and string helpers
-- ===========================================================================

/-- Calendar date (day number) of a UTC timestamp, `datetime.date()`. -/
def dateOf (t : Int) : Int := Int.fdiv t 86400

/-- Midnight timestamp of a day number: `"<date>T00:00:00+00:00"`. -/
def midnightOf (d : Int) : Int := d * 86400

/-- Injective rendering of a timestamp, standing in for
`strftime("%Y%m%d-%H%M%S")` (which is injective at second granularity). -/
def fmtTs (t : Int) : String := toString t

/-- Injective rendering of a day number, standing in for `"%Y-%m-%d"`. -/
def fmtDate (d : Int) : String := toString d

/-- Removal of the characters matched by `re.sub(r'[<>"\\\|?*]', '', s)`. -/
def removeInvalidChars (s : String) : String :=
  String.mk (s.toList.filter (fun c =>
    !(c = '<' || c = '>' || c = '"' || c = '\\' || c = '|' || c = '?' || c = '*')))

/-- Removal for author names, `re.sub(r'[<>"\\\|?*/:]', '', s)`: also
drops `/` and `:`. -/
def removeInvalidCharsAuthor (s : String) : String :=
  String.mk (s.toList.filter (fun c =>
    !(c = '<' || c = '>' || c = '"' || c = '\\' || c = '|' || c = '?' || c = '*'
      || c = '/' || c = ':')))

/-- Python `str.capitalize`: first character uppercased, the rest lowered. -/
def capitalize (s : String) : String :=
  match s.toList with
  | [] => ""
  | c :: cs => String.mk (c.toUpper :: cs.map Char.toLower)

/-- Python substring test `needle in hay`. -/
def strContains (hay needle : String) : Bool :=
  hay.toList.tails.any (fun t => needle.toList.isPrefixOf t)

/-- `extract_id_from_url`: last path segment of the URL after stripping
trailing slashes; `None`/empty URL gives `None`. -/
def extract_id_from_url (url : Option String) : Option String :=
  match url with
  | none => none
  | some u =>
    if u = "" then none
    else some (((u.dropRightWhile (fun c => c = '/')).splitOn "/").getLastD "")

-- ===========================================================================
-- Documents: data model
-- ===========================================================================

/-- A document from the v3 `/list/` endpoint, restricted to the fields the
engine reads.  `saved_at` is the parsed timestamp; `none` models a value
`datetime.fromisoformat` rejects (the backfill loop then raises). -/
structure Doc where
  title : String
  author : Option String
  category : Option String
  saved_at : Option Int
  readwise_url : Option String
deriving DecidableEq, Repr

/-- `sanitize_filename(title, doc)`.  `nowDay` is today's date, used by the
fallback paths that call `datetime.now()`. -/
def sanitize_filename (title : String) (doc : Option Doc) (nowDay : Int) : String :=
  let filename := (title.replace "/" "-").replace ":" " -"
  let filename := removeInvalidChars filename
  let filename := (filename.take 100).trim
  let filename :=
    if filename.toList.any Char.isAlphanum then filename
    else
      match doc with
      | some d =>
        let author := ((removeInvalidCharsAuthor (d.author.getD "Unknown")).take 30).trim
        let dateStr :=
          match d.saved_at with
          | some t => fmtDate (dateOf t)
          | none => fmtDate nowDay
        let category := d.category.getD "Document"
        let categoryLabel := if category = "tweet" then "Tweet" else capitalize category
        categoryLabel ++ " by " ++ author ++ " - " ++ dateStr
      | none => "Untitled - " ++ fmtDate nowDay
  filename ++ ".md"

-- ===========================================================================
-- State file
-- ===========================================================================

/-- Per-content-class sync record (the shape of the top level of the state
file and of its `highlights` sub-record). -/
structure SyncSub where
  last_import_timestamp : Int
  synced_ranges : List SyncedRange
  backfill_in_progress : Bool
deriving DecidableEq, Repr

/-- The state file.  `highlights` is optional (older schema files lack it);
`oldest_imported_date` is written by `readwise_init_ranges` only. -/
structure StateFile where
  last_import_timestamp : Int
  synced_ranges : List SyncedRange
  backfill_in_progress : Bool
  highlights : Option SyncSub
  oldest_imported_date : Option Int
deriving DecidableEq, Repr

/-- Backward-compatibility step of `load_state`: inject a default
`highlights` sub-record when the loaded file has none. -/
def ensureHighlights (raw : StateFile) (now : Int) : StateFile :=
  match raw.highlights with
  | some _ => raw
  | none => { raw with highlights := some ⟨now, [], false⟩ }

/-- Common shape of the dictionaries the tools return; fields a given tool
does not put in its dictionary stay at their defaults. -/
structure ToolOut where
  status : String
  message : Option String := none
  imported : Nat := 0
  skipped : Nat := 0
  pages : Nat := 0
  reached_target : Bool := false
  count : Nat := 0
  total_analyzed : Nat := 0
  cleared_ranges : Bool := false
deriving DecidableEq, Repr

/-- Observable effects of a pagination loop (client requests and the
fixed 500ms inter-page throttle sleeps). -/
inductive Effect where
  | fetch
  | sleepPage
deriving DecidableEq, Repr

-- ===========================================================================
-- Documents: backfill engine
-- ===========================================================================

/-- In-memory state of one documents run: counters, the mutable dedup
index, the documents handed to the writer, the cutoff flag, the effect
trace and the fetch count (`page_num`). -/
structure RunSt where
  imported : Nat := 0
  skipped : Nat := 0
  known_ids : List String := []
  known_filenames : List String := []
  saved : List Doc := []
  reached : Bool := false
  trace : List Effect := []
  pages : Nat := 0
deriving DecidableEq, Repr

/-- Dedup-check-then-save step shared by `readwise_import_recent` and the
body of the backfill loop: an id or filename match increments the skip
counter, otherwise the document is saved and registered in the in-memory
index (Python guards `known_ids.add` by `if doc_id:`, so an empty id is
not registered). -/
def docStep (nowDay : Int) (st : RunSt) (d : Doc) : RunSt :=
  let doc_id := extract_id_from_url d.readwise_url
  let filename := sanitize_filename d.title (some d) nowDay
  let isDup :=
    (match doc_id with
     | some i => st.known_ids.contains i
     | none => false) || st.known_filenames.contains filename
  if isDup then { st with skipped := st.skipped + 1 }
  else
    let st := { st with saved := st.saved ++ [d], imported := st.imported + 1 }
    let st :=
      match doc_id with
      | some i => if i = "" then st else { st with known_ids := st.known_ids ++ [i] }
      | none => st
    { st with known_filenames := st.known_filenames ++ [filename] }

/-- The `for doc in results` loop of `readwise_backfill`: a document whose
`saved_at` fails to parse raises (error), the first document dated
strictly before the target flips `reached` and stops, every other
document goes through `docStep`. -/
def processDocs (target : Int) (nowDay : Int) (st : RunSt) :
    List Doc → RunSt × Option Failure
  | [] => (st, none)
  | d :: ds =>
    match d.saved_at with
    | none => (st, some .badDate)
    | some t =>
      if dateOf t < target then ({ st with reached := true }, none)
      else processDocs target nowDay (docStep nowDay st d) ds

/-- One page of the v3 `/list/` endpoint. -/
structure DocPage where
  results : List Doc
  nextPageCursor : Option String
deriving DecidableEq, Repr

/-- The pagination `while` loop of `readwise_backfill`.  `pages i` is the
response of the `i`-th client call (the cursor only selects the page, so
it is ghost state here); `fuel` is the number of iterations the
`page_num < 100` bound still allows.  The throttle sleep of the source
happens after the fetch of every page but the first. -/
def goDocs (pages : Nat → Except Failure DocPage) (target nowDay : Int) :
    Nat → Option String → RunSt → RunSt × Option Failure
  | 0, _, st => (st, none)
  | fuel + 1, _cursor, st =>
    let st1 := { st with pages := st.pages + 1, trace := st.trace ++ [.fetch] }
    match pages st.pages with
    | .error e => (st1, some e)
    | .ok page =>
      let st2 := if st1.pages > 1 then { st1 with trace := st1.trace ++ [.sleepPage] } else st1
      match page.results with
      | [] => (st2, none)
      | _ :: _ =>
        match processDocs target nowDay st2 page.results with
        | (st3, some e) => (st3, some e)
        | (st3, none) =>
          if st3.reached then (st3, none)
          else
            match page.nextPageCursor with
            | none => (st3, none)
            | some c => goDocs pages target nowDay fuel (some c) st3

/-- Environment of a documents backfill call: the paginated API, the
current time and the dedup index built by `scan_existing_documents`. -/
structure DocEnv where
  pages : Nat → Except Failure DocPage
  now : Int
  known_ids : List String
  known_filenames : List String

/-- Run state at the start of a documents run: fresh counters, the scanned
dedup index. -/
def initRunSt (ids fns : List String) : RunSt :=
  { known_ids := ids, known_filenames := fns }

/-- `readwise_backfill(target_date, category)`.  `targetDate` is the parsed
target date; `none` models a string `strptime`/`fromisoformat` rejects
(the raise is caught and reported).  Returns the result dictionary and
the final on-disk state (`st0` when nothing was written).  The state is
the one `load_state` returned.  Note the committed state never touches
`synced_ranges`. -/
def readwise_backfill (e : DocEnv) (targetDate : Option Int) (st0 : StateFile) :
    ToolOut × StateFile :=
  match targetDate with
  | none => ({ status := "error", message := some "invalid target_date" }, st0)
  | some target =>
    let opt := optimize_backfill (midnightOf target) st0.synced_ranges
    if opt.1 = false then
      ({ status := "already_synced", message := some "already synced" }, st0)
    else
      match goDocs e.pages target (dateOf e.now) 100 none
          (initRunSt e.known_ids e.known_filenames) with
      | (_, some _) => ({ status := "error", message := some "backfill failed" }, st0)
      | (rst, none) =>
        ({ status := if rst.reached then "success" else "completed_all_pages",
           imported := rst.imported, skipped := rst.skipped,
           pages := rst.pages, reached_target := rst.reached },
         { ensureHighlights st0 e.now with last_import_timestamp := e.now })

-- ===========================================================================
-- Documents: import recent
-- ===========================================================================

/-- Environment of `readwise_import_recent`: one page fetch (filtered by
`updatedAfter = last_import_timestamp`, which only selects the server's
response), the current time, and the scanned dedup index. -/
structure RecentEnv where
  page : Except Failure (List Doc)
  now : Int
  known_ids : List String
  known_filenames : List String

/-- The dedup pass of `readwise_import_recent`: every document goes
through `docStep`; there is no target-date cutoff. -/
def processRecentDocs (nowDay : Int) (st : RunSt) : List Doc → RunSt
  | [] => st
  | d :: ds => processRecentDocs nowDay (docStep nowDay st d) ds

/-- `readwise_import_recent(category, limit)`: one fetch, full dedup pass,
and the timestamp is advanced (and the state rewritten) only when the
response carried at least one document. -/
def readwise_import_recent (e : RecentEnv) (st0 : StateFile) : ToolOut × StateFile :=
  match e.page with
  | .error _ => ({ status := "error", message := some "fetch failed" }, st0)
  | .ok results =>
    let st := processRecentDocs (dateOf e.now)
      (initRunSt e.known_ids e.known_filenames) results
    let state' :=
      match results with
      | [] => st0
      | _ :: _ => { ensureHighlights st0 e.now with last_import_timestamp := e.now }
    ({ status := "success", imported := st.imported, skipped := st.skipped,
       total_analyzed := results.length }, state')

-- ===========================================================================
-- Highlights: data model
-- ===========================================================================

/-- A highlight as the engine reads it.  `id` is `str(highlight.get("id",
""))`; `updated` is the parsed first non-empty of
`updated`/`updated_at`/`created_at` (`none` when missing or unparseable);
the text fields are used only by the fetch-and-filter tools. -/
structure Highlight where
  id : String
  updated : Option Int
  text : String := ""
  note : String := ""
  book_title : String := ""
deriving DecidableEq, Repr

/-- A book of the v2 `/export/` endpoint: metadata plus its highlights. -/
structure Book where
  title : Option String
  author : Option String
  category : Option String
  source_url : Option String
  highlights : List Highlight
deriving DecidableEq, Repr

/-- A highlight as persisted: the enrichment step copies the book's
metadata onto the highlight before saving. -/
structure SavedHl where
  source_title : String
  author : Option String
  category : Option String
  source_url : Option String
  hl : Highlight
deriving DecidableEq, Repr

/-- Enrichment of a highlight with its book's metadata. -/
def enrich (b : Book) (h : Highlight) : SavedHl :=
  { source_title := b.title.getD "Unknown Source", author := b.author,
    category := b.category, source_url := b.source_url, hl := h }

/-- `sanitize_source_title(title, 100)`. -/
def sanitize_source_title (title : String) : String :=
  let s := (title.replace "/" "-").replace ":" " -"
  let s := removeInvalidChars s
  let s := (s.take 100).trim
  if s = "" || !(s.toList.any Char.isAlphanum) then "Untitled Source" else s

/-- Filename of a saved highlight,
`f"{timestamp_prefix} [{sanitized_source}] highlight.md"`. -/
def hlFilename (t : Int) (bookTitle : String) : String :=
  fmtTs t ++ " [" ++ sanitize_source_title bookTitle ++ "] highlight.md"

-- ===========================================================================
-- Highlights: backfill engine
-- ===========================================================================

/-- In-memory state of one highlights run (same fields as the documents
run, with enriched highlights as the saved payloads). -/
structure HlSt where
  imported : Nat := 0
  skipped : Nat := 0
  known_ids : List String := []
  known_filenames : List String := []
  saved : List SavedHl := []
  reached : Bool := false
  trace : List Effect := []
  pages : Nat := 0
deriving DecidableEq, Repr

/-- Dedup-check-then-save step for one highlight whose timestamp `t` is
known (Python guards `known_ids.add` by `if highlight_id:`). -/
def hlStep (b : Book) (t : Int) (st : HlSt) (h : Highlight) : HlSt :=
  let filename := hlFilename t (b.title.getD "Unknown Source")
  if st.known_ids.contains h.id || st.known_filenames.contains filename then
    { st with skipped := st.skipped + 1 }
  else
    let st := { st with saved := st.saved ++ [enrich b h], imported := st.imported + 1 }
    let st := if h.id = "" then st else { st with known_ids := st.known_ids ++ [h.id] }
    { st with known_filenames := st.known_filenames ++ [filename] }

/-- The `for highlight in book.get("highlights", [])` loop of
`readwise_backfill_highlights`: unparseable dates are skipped silently,
the first highlight dated strictly before the target flips `reached` and
stops the book, every other highlight goes through `hlStep`. -/
def processHls (target : Int) (b : Book) (st : HlSt) : List Highlight → HlSt
  | [] => st
  | h :: hs =>
    match h.updated with
    | none => processHls target b st hs
    | some t =>
      if dateOf t < target then { st with reached := true }
      else processHls target b (hlStep b t st h) hs

/-- The `for book in books` loop: each iteration first checks the cutoff
flag and breaks, so no book after the cutoff is processed. -/
def processBooks (target : Int) (st : HlSt) : List Book → HlSt
  | [] => st
  | b :: bs =>
    if st.reached then st
    else processBooks target (processHls target b st b.highlights) bs

/-- One page of the v2 `/export/` endpoint; `next` is the truthiness of
the `next` link. -/
structure HlPage where
  results : List Book
  next : Bool
deriving DecidableEq, Repr

/-- The pagination `while` loop of `readwise_backfill_highlights`
(numeric-page pagination; `pages i` is the response to the `i`-th call,
the page number is `i + 1`).  As in the documents loop, the throttle
sleep happens after the fetch of every page but the first. -/
def goHls (pages : Nat → Except Failure HlPage) (target : Int) :
    Nat → HlSt → HlSt × Option Failure
  | 0, st => (st, none)
  | fuel + 1, st =>
    let st1 := { st with pages := st.pages + 1, trace := st.trace ++ [.fetch] }
    match pages st.pages with
    | .error e => (st1, some e)
    | .ok page =>
      let st2 := if st1.pages > 1 then { st1 with trace := st1.trace ++ [.sleepPage] } else st1
      match page.results with
      | [] => (st2, none)
      | _ :: _ =>
        let st3 := processBooks target st2 page.results
        if st3.reached then (st3, none)
        else if page.next then goHls pages target fuel st3
        else (st3, none)

/-- Environment of a highlights backfill call. -/
structure HlEnv where
  pages : Nat → Except Failure HlPage
  now : Int
  known_ids : List String
  known_filenames : List String

/-- Run state at the start of a highlights run. -/
def initHlSt (ids fns : List String) : HlSt :=
  { known_ids := ids, known_filenames := fns }

/-- `readwise_backfill_highlights(target_date)`.  On reaching the target a
new range from the target's midnight to now (with the run's import count)
is appended to the highlights ranges; either way the highlights timestamp
is advanced and the state rewritten.  A missing `highlights` sub-record
falls back to `{}` (`state.get("highlights", {})`), i.e. empty ranges and
a clear progress flag. -/
def readwise_backfill_highlights (e : HlEnv) (targetDate : Option Int)
    (st0 : StateFile) : ToolOut × StateFile :=
  let hlState := st0.highlights.getD ⟨0, [], false⟩
  match targetDate with
  | none => ({ status := "error", message := some "invalid target_date" }, st0)
  | some target =>
    let opt := optimize_backfill (midnightOf target) hlState.synced_ranges
    if opt.1 = false then
      ({ status := "already_synced", message := some "already synced" }, st0)
    else
      match goHls e.pages target 999 (initHlSt e.known_ids e.known_filenames) with
      | (_, some _) => ({ status := "error", message := some "backfill failed" }, st0)
      | (rst, none) =>
        let ranges' :=
          if rst.reached
          then hlState.synced_ranges ++ [⟨midnightOf target, e.now, rst.imported, e.now⟩]
          else hlState.synced_ranges
        ({ status := if rst.reached then "success" else "completed_all_pages",
           imported := rst.imported, skipped := rst.skipped,
           pages := rst.pages, reached_target := rst.reached },
         { st0 with highlights := some ⟨e.now, ranges', hlState.backfill_in_progress⟩ })

-- ===========================================================================
-- Highlights: import recent
-- ===========================================================================

/-- Environment of `readwise_import_recent_highlights`. -/
structure RecentHlEnv where
  page : Except Failure (List Book)
  now : Int
  known_ids : List String
  known_filenames : List String

/-- Per-highlight step of the recent-highlights import: no cutoff; a
highlight whose date fails to parse is still imported, its filename
falling back to the current time. -/
def hlRecentStep (nowTs : Int) (b : Book) (st : HlSt) (h : Highlight) : HlSt :=
  hlStep b (match h.updated with | some t => t | none => nowTs) st h

/-- Inner loop of the recent-highlights import, also counting
`total_analyzed` (every highlight seen, deduplicated or not). -/
def processRecentHls (nowTs : Int) (b : Book) (st : HlSt) :
    List Highlight → HlSt × Nat
  | [] => (st, 0)
  | h :: hs =>
    let r := processRecentHls nowTs b (hlRecentStep nowTs b st h) hs
    (r.1, r.2 + 1)

/-- Outer loop of the recent-highlights import over books. -/
def processRecentBooks (nowTs : Int) (st : HlSt) : List Book → HlSt × Nat
  | [] => (st, 0)
  | b :: bs =>
    let r1 := processRecentHls nowTs b st b.highlights
    let r2 := processRecentBooks nowTs r1.1 bs
    (r2.1, r1.2 + r2.2)

/-- `readwise_import_recent_highlights(limit)`: one fetch, full dedup
pass, and the highlights timestamp is advanced (and the state rewritten)
only when at least one highlight was analyzed. -/
def readwise_import_recent_highlights (e : RecentHlEnv) (st0 : StateFile) :
    ToolOut × StateFile :=
  match e.page with
  | .error _ => ({ status := "error", message := some "fetch failed" }, st0)
  | .ok books =>
    let r := processRecentBooks e.now (initHlSt e.known_ids e.known_filenames) books
    let state' :=
      if r.2 > 0 then
        let hlState := st0.highlights.getD ⟨0, [], false⟩
        { st0 with
          highlights := some ⟨e.now, hlState.synced_ranges, hlState.backfill_in_progress⟩ }
      else st0
    ({ status := "success", imported := r.1.imported, skipped := r.1.skipped,
       total_analyzed := r.2 }, state')

-- ===========================================================================
-- Remaining tools
-- ===========================================================================

/-- `readwise_daily_review()`: one fetch of `/highlights/`; an empty page
is `no_highlights`, otherwise the review file is written and the count
reported (the markdown body is out of scope). -/
def readwise_daily_review (page : Except Failure (List Highlight)) : ToolOut :=
  match page with
  | .error _ => { status := "error", message := some "fetch failed" }
  | .ok hs =>
    if hs.isEmpty then { status := "no_highlights", count := 0 }
    else { status := "success", count := hs.length }

/-- `readwise_book_highlights(title?, book_id?)`: fetch then filter by
substring of the lowercased book title. -/
def readwise_book_highlights (title : Option String)
    (page : Except Failure (List Highlight)) : ToolOut :=
  match page with
  | .error _ => { status := "error", message := some "fetch failed" }
  | .ok hs =>
    let hs' :=
      match title with
      | some q => hs.filter (fun (h : Highlight) => strContains h.book_title.toLower q.toLower)
      | none => hs
    { status := "success", count := hs'.length }

/-- `readwise_search_highlights(query, limit)`: fetch then filter by
substring of the lowercased text or note. -/
def readwise_search_highlights (query : String)
    (page : Except Failure (List Highlight)) : ToolOut :=
  match page with
  | .error _ => { status := "error", message := some "fetch failed" }
  | .ok hs =>
    let matching := hs.filter (fun h =>
      strContains h.text.toLower query.toLower ||
      strContains h.note.toLower query.toLower)
    { status := "success", count := matching.length }

/-- `readwise_state_info()`: report the loaded state and the scan counts;
a state file that fails to load is caught and reported. -/
def readwise_state_info (st : Except Failure StateFile)
    (known_ids known_filenames : List String) : ToolOut :=
  match st with
  | .error _ => { status := "error", message := some "state load failed" }
  | .ok _ => { status := "success", count := known_filenames.length }

/-- `readwise_init_ranges()`: collapse the scanned `saved_at` dates (an
unparseable collected date raises, caught at the boundary) into a single
min-max range, replacing `synced_ranges` wholesale. -/
def readwise_init_ranges (dates : Except Failure (List Int)) (now : Int)
    (st0 : StateFile) : ToolOut × StateFile :=
  match dates with
  | .error _ => ({ status := "error", message := some "scan failed" }, st0)
  | .ok [] =>
    ({ status := "no_documents", message := some "No documents with dates found" }, st0)
  | .ok (d :: ds) =>
    let sorted := List.insertionSort (fun a b => a ≤ b) (d :: ds)
    let first := sorted.headD 0
    let last := sorted.getLastD 0
    ({ status := "success", count := (d :: ds).length },
     { ensureHighlights st0 now with
         synced_ranges := [⟨first, last, (d :: ds).length, now⟩],
         oldest_imported_date := some (dateOf first) })

/-- `readwise_reset_state(clear_ranges)`: write a fresh three-field state,
preserving the document `synced_ranges` unless `clear_ranges`; every
other field of the old file (the `highlights` sub-record,
`oldest_imported_date`) is dropped. -/
def readwise_reset_state (clear_ranges : Bool) (now : Int) (st0 : StateFile) :
    ToolOut × StateFile :=
  if clear_ranges then
    ({ status := "success", message := some "State reset", cleared_ranges := true },
     { last_import_timestamp := now, synced_ranges := [],
       backfill_in_progress := false, highlights := none,
       oldest_imported_date := none })
  else
    ({ status := "success", message := some "State reset", cleared_ranges := false },
     { last_import_timestamp := now, synced_ranges := st0.synced_ranges,
       backfill_in_progress := false, highlights := none,
       oldest_imported_date := none })

-- ===========================================================================
-- Throttle trace patterns
-- ===========================================================================

/-- Shape of a pagination trace after its first fetch: blocks of
fetch-then-sleep, with a lone trailing fetch allowed (a fetch that raised
sleeps no throttle). -/
def blocksOk : List Effect → Bool
  | [] => true
  | [.fetch] => true
  | .fetch :: .sleepPage :: r => blocksOk r
  | _ => false

/-- Shape of a whole pagination trace: nothing, or a first fetch with no
sleep before or right after it, followed by fetch-then-sleep blocks. -/
def throttleOk : List Effect → Bool
  | [] => true
  | .fetch :: r => blocksOk r
  | _ => false

/-- The pattern claim C9 asserts, written from its words: no sleep before
the first fetch, and every later fetch immediately preceded by a sleep
(`prev` is the preceding effect). -/
def sleepPrecedesLaterFetches : Effect → List Effect → Bool
  | _, [] => true
  | p, .fetch :: r => (p == Effect.sleepPage) && sleepPrecedesLaterFetches .fetch r
  | _, .sleepPage :: r => sleepPrecedesLaterFetches .sleepPage r

/-- Claim C9's trace property as stated. -/
def claimedThrottlePattern : List Effect → Bool
  | [] => true
  | .sleepPage :: _ => false
  | .fetch :: r => sleepPrecedesLaterFetches .fetch r

-- ===========================================================================
-- C10: reset-state with clearRanges=false
-- ===========================================================================

/-- C10: for every stored state with a highlights sub-record,
`readwise_reset_state(clear_ranges=False)` writes a state holding exactly
the fresh `last_import_timestamp`, the preserved document
`synced_ranges`, and `backfill_in_progress=False`; the `highlights`
sub-record and `oldest_imported_date` are dropped. -/
theorem claim_C10 (st0 : StateFile) (h : SyncSub) (now : Int)
    (hh : st0.highlights = some h) :
    readwise_reset_state false now st0 =
      ({ status := "success", message := some "State reset", cleared_ranges := false },
       { last_import_timestamp := now, synced_ranges := st0.synced_ranges,
         backfill_in_progress := false, highlights := none,
         oldest_imported_date := none }) := rfl

theorem claim_C10_witness :
    (⟨1, [⟨5, 10, 2, 11⟩], true, some ⟨2, [⟨3, 4, 1, 6⟩], true⟩, some 3⟩ :
        StateFile).highlights = some ⟨2, [⟨3, 4, 1, 6⟩], true⟩ ∧
    readwise_reset_state false 9
        ⟨1, [⟨5, 10, 2, 11⟩], true, some ⟨2, [⟨3, 4, 1, 6⟩], true⟩, some 3⟩ =
      ({ status := "success", message := some "State reset", cleared_ranges := false },
       ⟨9, [⟨5, 10, 2, 11⟩], false, none, none⟩) :=
  ⟨rfl, claim_C10 _ ⟨2, [⟨3, 4, 1, 6⟩], true⟩ 9 rfl⟩

-- ===========================================================================
-- C7: import-recent state effects
-- ===========================================================================

/-- C7, counterexample: a successful `readwise_import_recent` whose API
response carries zero items does not advance `last_import_timestamp` (the
state file is not rewritten at all). -/
theorem claim_C7_cex :
    (readwise_import_recent ⟨.ok [], 9, [], []⟩
        ⟨1, [], false, some ⟨2, [], false⟩, none⟩).1.status = "success" ∧
    (readwise_import_recent ⟨.ok [], 9, [], []⟩
        ⟨1, [], false, some ⟨2, [], false⟩, none⟩).2.last_import_timestamp = 1 ∧
    (readwise_import_recent ⟨.ok [], 9, [], []⟩
        ⟨1, [], false, some ⟨2, [], false⟩, none⟩).2.last_import_timestamp ≠ 9 := by
  refine ⟨rfl, rfl, ?_⟩
  decide

/-- C7, amended: both import-recent tools never touch either
`synced_ranges` list; they advance the content class's
`last_import_timestamp` when the response carried at least one item, and
leave the state file completely untouched when it carried none. -/
theorem claim_C7 :
    (∀ (e : RecentEnv) (st0 : StateFile),
      (readwise_import_recent e st0).2.synced_ranges = st0.synced_ranges ∧
      ((readwise_import_recent e st0).2.highlights.getD ⟨0, [], false⟩).synced_ranges =
        ((st0.highlights.getD ⟨0, [], false⟩)).synced_ranges) ∧
    (∀ (e : RecentEnv) (st0 : StateFile) (d : Doc) (ds : List Doc),
      e.page = .ok (d :: ds) →
      (readwise_import_recent e st0).2.last_import_timestamp = e.now) ∧
    (∀ (e : RecentEnv) (st0 : StateFile),
      e.page = .ok [] → (readwise_import_recent e st0).2 = st0) ∧
    (∀ (e : RecentHlEnv) (st0 : StateFile),
      (readwise_import_recent_highlights e st0).2.synced_ranges = st0.synced_ranges ∧
      ((readwise_import_recent_highlights e st0).2.highlights.getD
          ⟨0, [], false⟩).synced_ranges =
        ((st0.highlights.getD ⟨0, [], false⟩)).synced_ranges) ∧
    (∀ (e : RecentHlEnv) (st0 : StateFile) (books : List Book),
      e.page = .ok books →
      0 < (processRecentBooks e.now (initHlSt e.known_ids e.known_filenames) books).2 →
      (readwise_import_recent_highlights e st0).2.highlights =
        some ⟨e.now, (st0.highlights.getD ⟨0, [], false⟩).synced_ranges,
          (st0.highlights.getD ⟨0, [], false⟩).backfill_in_progress⟩) ∧
    (∀ (e : RecentHlEnv) (st0 : StateFile) (books : List Book),
      e.page = .ok books →
      (processRecentBooks e.now (initHlSt e.known_ids e.known_filenames) books).2 = 0 →
      (readwise_import_recent_highlights e st0).2 = st0) := by
  refine ⟨?_, ?_, ?_, ?_, ?_, ?_⟩
  · intro e st0
    unfold readwise_import_recent
    cases hp : e.page with
    | error f => exact ⟨rfl, rfl⟩
    | ok results =>
      cases results with
      | nil => exact ⟨rfl, rfl⟩
      | cons d ds =>
        unfold ensureHighlights
        cases hh : st0.highlights with
        | none => exact ⟨rfl, rfl⟩
        | some h => simp [hh]
  · intro e st0 d ds hp
    unfold readwise_import_recent
    rw [hp]
  · intro e st0 hp
    unfold readwise_import_recent
    rw [hp]
  · intro e st0
    unfold readwise_import_recent_highlights
    cases hp : e.page with
    | error f => exact ⟨rfl, rfl⟩
    | ok books =>
      dsimp only
      split
      · exact ⟨rfl, rfl⟩
      · exact ⟨rfl, rfl⟩
  · intro e st0 books hp htot
    unfold readwise_import_recent_highlights
    rw [hp]
    dsimp only
    rw [if_pos htot]
  · intro e st0 books hp htot
    unfold readwise_import_recent_highlights
    rw [hp]
    dsimp only
    rw [if_neg (by omega)]

theorem claim_C7_witness :
    ((readwise_import_recent ⟨.ok [⟨"A", none, none, some 0, none⟩], 9, [], []⟩
        ⟨1, [⟨5, 10, 2, 11⟩], false, some ⟨2, [⟨3, 4, 1, 6⟩], false⟩, none⟩).2.synced_ranges =
      [⟨5, 10, 2, 11⟩]) ∧
    ((⟨.ok [⟨"A", none, none, some 0, none⟩], 9, [], []⟩ : RecentEnv).page =
      .ok [⟨"A", none, none, some 0, none⟩]) ∧
    ((readwise_import_recent ⟨.ok [⟨"A", none, none, some 0, none⟩], 9, [], []⟩
        ⟨1, [⟨5, 10, 2, 11⟩], false, some ⟨2, [⟨3, 4, 1, 6⟩], false⟩,
          none⟩).2.last_import_timestamp = 9) ∧
    ((readwise_import_recent ⟨.ok [], 9, [], []⟩
        ⟨1, [], false, some ⟨2, [], false⟩, none⟩).2 =
      ⟨1, [], false, some ⟨2, [], false⟩, none⟩) := by
  refine ⟨?_, rfl, ?_, ?_⟩
  · exact (claim_C7.1 ⟨.ok [⟨"A", none, none, some 0, none⟩], 9, [], []⟩
      ⟨1, [⟨5, 10, 2, 11⟩], false, some ⟨2, [⟨3, 4, 1, 6⟩], false⟩, none⟩).1
  · exact claim_C7.2.1 ⟨.ok [⟨"A", none, none, some 0, none⟩], 9, [], []⟩
      ⟨1, [⟨5, 10, 2, 11⟩], false, some ⟨2, [⟨3, 4, 1, 6⟩], false⟩, none⟩
      ⟨"A", none, none, some 0, none⟩ [] rfl
  · exact claim_C7.2.2.1 ⟨.ok [], 9, [], []⟩ ⟨1, [], false, some ⟨2, [], false⟩, none⟩ rfl

-- ===========================================================================
-- C2: range commit on backfill completion
-- ===========================================================================

/-- C2, counterexample: a documents backfill that reaches its target
(status `success`, `reached_target=true`) appends no range at all —
`synced_ranges` stays empty. -/
theorem claim_C2_cex :
    (readwise_backfill
        ⟨fun _ => .ok ⟨[⟨"T", none, none, some (-86400), none⟩], none⟩, 9, [], []⟩
        (some 0) ⟨1, [], false, some ⟨2, [], false⟩, none⟩).1.reached_target = true ∧
    (readwise_backfill
        ⟨fun _ => .ok ⟨[⟨"T", none, none, some (-86400), none⟩], none⟩, 9, [], []⟩
        (some 0) ⟨1, [], false, some ⟨2, [], false⟩, none⟩).1.status = "success" ∧
    (readwise_backfill
        ⟨fun _ => .ok ⟨[⟨"T", none, none, some (-86400), none⟩], none⟩, 9, [], []⟩
        (some 0) ⟨1, [], false, some ⟨2, [], false⟩, none⟩).2.synced_ranges = [] := by
  refine ⟨rfl, rfl, rfl⟩

/-- C2, amended: only the highlights backfill commits a range.  On
`success` (target reached) it appends the range from the target's
midnight to now, carrying the run's import count, and advances the
highlights timestamp; on `completed_all_pages` it advances the timestamp
without appending.  The documents backfill advances the document
timestamp on both outcomes and never modifies any `synced_ranges`. -/
theorem claim_C2 :
    (∀ (e : DocEnv) (t : Int) (st0 : StateFile),
      ((readwise_backfill e (some t) st0).1.status = "success" ∨
       (readwise_backfill e (some t) st0).1.status = "completed_all_pages") →
      (readwise_backfill e (some t) st0).2 =
        { ensureHighlights st0 e.now with last_import_timestamp := e.now }) ∧
    (∀ (e : HlEnv) (t : Int) (st0 : StateFile),
      (readwise_backfill_highlights e (some t) st0).1.status = "success" →
      (readwise_backfill_highlights e (some t) st0).2 =
        { st0 with highlights := some ⟨e.now,
            (st0.highlights.getD ⟨0, [], false⟩).synced_ranges ++
              [⟨midnightOf t, e.now,
                (readwise_backfill_highlights e (some t) st0).1.imported, e.now⟩],
            (st0.highlights.getD ⟨0, [], false⟩).backfill_in_progress⟩ }) ∧
    (∀ (e : HlEnv) (t : Int) (st0 : StateFile),
      (readwise_backfill_highlights e (some t) st0).1.status = "completed_all_pages" →
      (readwise_backfill_highlights e (some t) st0).2 =
        { st0 with highlights := some ⟨e.now,
            (st0.highlights.getD ⟨0, [], false⟩).synced_ranges,
            (st0.highlights.getD ⟨0, [], false⟩).backfill_in_progress⟩ }) := by
  refine ⟨?_, ?_, ?_⟩
  · intro e t st0 h
    unfold readwise_backfill at h ⊢
    dsimp only at h ⊢
    by_cases hopt : (optimize_backfill (midnightOf t) st0.synced_ranges).1 = false
    · rw [if_pos hopt] at h
      simp at h
    · rw [if_neg hopt] at h ⊢
      rcases hgo : goDocs e.pages t (dateOf e.now) 100 none
        (initRunSt e.known_ids e.known_filenames) with ⟨rst, err⟩
      rw [hgo] at h
      cases err with
      | some f => simp at h
      | none => rfl
  · intro e t st0 h
    unfold readwise_backfill_highlights at h ⊢
    dsimp only at h ⊢
    by_cases hopt : (optimize_backfill (midnightOf t)
        (st0.highlights.getD ⟨0, [], false⟩).synced_ranges).1 = false
    · rw [if_pos hopt] at h
      simp at h
    · rw [if_neg hopt] at h ⊢
      rcases hgo : goHls e.pages t 999 (initHlSt e.known_ids e.known_filenames)
        with ⟨rst, err⟩
      rw [hgo] at h
      cases err with
      | some f => simp at h
      | none =>
        dsimp only at h ⊢
        cases hr : rst.reached with
        | false => simp [hr] at h
        | true => simp
  · intro e t st0 h
    unfold readwise_backfill_highlights at h ⊢
    dsimp only at h ⊢
    by_cases hopt : (optimize_backfill (midnightOf t)
        (st0.highlights.getD ⟨0, [], false⟩).synced_ranges).1 = false
    · rw [if_pos hopt] at h
      simp at h
    · rw [if_neg hopt] at h ⊢
      rcases hgo : goHls e.pages t 999 (initHlSt e.known_ids e.known_filenames)
        with ⟨rst, err⟩
      rw [hgo] at h
      cases err with
      | some f => simp at h
      | none =>
        dsimp only at h ⊢
        cases hr : rst.reached with
        | true => simp [hr] at h
        | false => simp

theorem claim_C2_witness :
    ((readwise_backfill ⟨fun _ => .ok ⟨[], none⟩, 9, [], []⟩ (some 0)
          ⟨1, [], false, some ⟨2, [], false⟩, none⟩).1.status = "completed_all_pages" ∧
      (readwise_backfill ⟨fun _ => .ok ⟨[], none⟩, 9, [], []⟩ (some 0)
          ⟨1, [], false, some ⟨2, [], false⟩, none⟩).2 =
        ⟨9, [], false, some ⟨2, [], false⟩, none⟩) ∧
    ((readwise_backfill_highlights
          ⟨fun _ => .ok ⟨[⟨some "B", none, none, none, [⟨"h1", some (-86400), "", "", ""⟩]⟩], false⟩,
            9, [], []⟩ (some 0)
          ⟨1, [], false, some ⟨2, [], false⟩, none⟩).1.status = "success" ∧
      (readwise_backfill_highlights
          ⟨fun _ => .ok ⟨[⟨some "B", none, none, none, [⟨"h1", some (-86400), "", "", ""⟩]⟩], false⟩,
            9, [], []⟩ (some 0)
          ⟨1, [], false, some ⟨2, [], false⟩, none⟩).2 =
        ⟨1, [], false, some ⟨9, [⟨0, 9, 0, 9⟩], false⟩, none⟩) ∧
    ((readwise_backfill_highlights ⟨fun _ => .ok ⟨[], false⟩, 9, [], []⟩ (some 0)
          ⟨1, [], false, some ⟨2, [], false⟩, none⟩).1.status = "completed_all_pages" ∧
      (readwise_backfill_highlights ⟨fun _ => .ok ⟨[], false⟩, 9, [], []⟩ (some 0)
          ⟨1, [], false, some ⟨2, [], false⟩, none⟩).2 =
        ⟨1, [], false, some ⟨9, [], false⟩, none⟩) := by
  refine ⟨⟨by decide, ?_⟩, ⟨by decide, ?_⟩, ⟨by decide, ?_⟩⟩
  · exact claim_C2.1 ⟨fun _ => .ok ⟨[], none⟩, 9, [], []⟩ 0
      ⟨1, [], false, some ⟨2, [], false⟩, none⟩ (Or.inr (by decide))
  · exact claim_C2.2.1
      ⟨fun _ => .ok ⟨[⟨some "B", none, none, none, [⟨"h1", some (-86400), "", "", ""⟩]⟩], false⟩,
        9, [], []⟩ 0 ⟨1, [], false, some ⟨2, [], false⟩, none⟩ (by decide)
  · exact claim_C2.2.2 ⟨fun _ => .ok ⟨[], false⟩, 9, [], []⟩ 0
      ⟨1, [], false, some ⟨2, [], false⟩, none⟩ (by decide)

-- ===========================================================================
-- C8: structured results, no uncaught exceptions
-- ===========================================================================

/-- C8: every exposed operation is total over every environment —
including environments whose fetch raises (transport failure, exhausted
retries, fatal HTTP status) and malformed target dates — and returns a
dictionary whose `status` discriminator is one of the documented values,
with raising paths mapped to `status = "error"`. -/
theorem claim_C8 :
    (∀ (page : Except Failure (List Highlight)),
      (readwise_daily_review page).status ∈ ["success", "no_highlights", "error"]) ∧
    (∀ (e : RecentEnv) (st0 : StateFile),
      (readwise_import_recent e st0).1.status ∈ ["success", "error"]) ∧
    (∀ (e : DocEnv) (td : Option Int) (st0 : StateFile),
      (readwise_backfill e td st0).1.status ∈
        ["success", "completed_all_pages", "already_synced", "error"]) ∧
    (∀ (title : Option String) (page : Except Failure (List Highlight)),
      (readwise_book_highlights title page).status ∈ ["success", "error"]) ∧
    (∀ (q : String) (page : Except Failure (List Highlight)),
      (readwise_search_highlights q page).status ∈ ["success", "error"]) ∧
    (∀ (st : Except Failure StateFile) (ids fns : List String),
      (readwise_state_info st ids fns).status ∈ ["success", "error"]) ∧
    (∀ (dates : Except Failure (List Int)) (now : Int) (st0 : StateFile),
      (readwise_init_ranges dates now st0).1.status ∈
        ["success", "no_documents", "error"]) ∧
    (∀ (b : Bool) (now : Int) (st0 : StateFile),
      (readwise_reset_state b now st0).1.status = "success") ∧
    (∀ (e : RecentHlEnv) (st0 : StateFile),
      (readwise_import_recent_highlights e st0).1.status ∈ ["success", "error"]) ∧
    (∀ (e : HlEnv) (td : Option Int) (st0 : StateFile),
      (readwise_backfill_highlights e td st0).1.status ∈
        ["success", "completed_all_pages", "already_synced", "error"]) ∧
    (∀ (f : Failure), (readwise_daily_review (.error f)).status = "error") ∧
    (∀ (e : RecentEnv) (st0 : StateFile) (f : Failure), e.page = .error f →
      (readwise_import_recent e st0).1.status = "error") ∧
    (∀ (e : DocEnv) (st0 : StateFile),
      (readwise_backfill e none st0).1.status = "error") := by
  refine ⟨?_, ?_, ?_, ?_, ?_, ?_, ?_, ?_, ?_, ?_, ?_, ?_, ?_⟩
  · intro page
    unfold readwise_daily_review
    rcases page with f | hs
    · simp
    · dsimp only
      split <;> simp
  · intro e st0
    unfold readwise_import_recent
    rcases hp : e.page with f | results
    · simp
    · cases results <;> simp
  · intro e td st0
    cases td with
    | none => simp [readwise_backfill]
    | some t =>
      unfold readwise_backfill
      dsimp only
      split
      · simp
      · rcases hgo : goDocs e.pages t (dateOf e.now) 100 none
          (initRunSt e.known_ids e.known_filenames) with ⟨rst, err⟩
        cases err with
        | some f => simp
        | none =>
          dsimp only
          split <;> simp
  · intro title page
    unfold readwise_book_highlights
    rcases page with f | hs
    · simp
    · simp
  · intro q page
    unfold readwise_search_highlights
    rcases page with f | hs
    · simp
    · simp
  · intro st ids fns
    unfold readwise_state_info
    rcases st with f | s
    · simp
    · simp
  · intro dates now st0
    unfold readwise_init_ranges
    rcases dates with f | ds
    · simp
    · cases ds <;> simp
  · intro b now st0
    unfold readwise_reset_state
    cases b <;> simp
  · intro e st0
    unfold readwise_import_recent_highlights
    rcases hp : e.page with f | books
    · simp
    · simp
  · intro e td st0
    cases td with
    | none => simp [readwise_backfill_highlights]
    | some t =>
      unfold readwise_backfill_highlights
      dsimp only
      split
      · simp
      · rcases hgo : goHls e.pages t 999 (initHlSt e.known_ids e.known_filenames)
          with ⟨rst, err⟩
        cases err with
        | some f => simp
        | none =>
          dsimp only
          split <;> simp
  · intro f
    rfl
  · intro e st0 f hp
    unfold readwise_import_recent
    rw [hp]
  · intro e st0
    rfl

theorem claim_C8_witness :
    ((readwise_daily_review (.error .transport)).status = "error") ∧
    ((⟨.error .rateLimited, 9, [], []⟩ : RecentEnv).page = .error .rateLimited ∧
      (readwise_import_recent ⟨.error .rateLimited, 9, [], []⟩
          ⟨1, [], false, none, none⟩).1.status = "error") ∧
    ((readwise_backfill ⟨fun _ => .error (.httpStatus 500), 9, [], []⟩ none
        ⟨1, [], false, none, none⟩).1.status = "error") :=
  ⟨claim_C8.2.2.2.2.2.2.2.2.2.2.1 .transport,
   ⟨rfl, claim_C8.2.2.2.2.2.2.2.2.2.2.2.1 ⟨.error .rateLimited, 9, [], []⟩
      ⟨1, [], false, none, none⟩ .rateLimited rfl⟩,
   claim_C8.2.2.2.2.2.2.2.2.2.2.2.2 ⟨fun _ => .error (.httpStatus 500), 9, [], []⟩
      ⟨1, [], false, none, none⟩⟩

-- ===========================================================================
-- Trace frame lemmas for the pagination loops
-- ===========================================================================

lemma docStep_frame (n : Int) (st : RunSt) (d : Doc) :
    (docStep n st d).trace = st.trace ∧ (docStep n st d).pages = st.pages ∧
      (docStep n st d).reached = st.reached := by
  unfold docStep
  dsimp only
  split
  · exact ⟨rfl, rfl, rfl⟩
  · split
    · split <;> exact ⟨rfl, rfl, rfl⟩
    · exact ⟨rfl, rfl, rfl⟩

lemma processDocs_frame (t n : Int) :
    ∀ (l : List Doc) (st : RunSt),
      (processDocs t n st l).1.trace = st.trace ∧
        (processDocs t n st l).1.pages = st.pages := by
  intro l
  induction l with
  | nil => intro st; exact ⟨rfl, rfl⟩
  | cons d ds ih =>
    intro st
    unfold processDocs
    cases d.saved_at with
    | none => exact ⟨rfl, rfl⟩
    | some u =>
      dsimp only
      split
      · exact ⟨rfl, rfl⟩
      · have h1 := docStep_frame n st d
        have h2 := ih (docStep n st d)
        exact ⟨h2.1.trans h1.1, h2.2.trans h1.2.1⟩

lemma hlStep_frame (b : Book) (t : Int) (st : HlSt) (h : Highlight) :
    (hlStep b t st h).trace = st.trace ∧ (hlStep b t st h).pages = st.pages ∧
      (hlStep b t st h).reached = st.reached := by
  unfold hlStep
  dsimp only
  split
  · exact ⟨rfl, rfl, rfl⟩
  · split <;> exact ⟨rfl, rfl, rfl⟩

lemma processHls_frame (t : Int) (b : Book) :
    ∀ (l : List Highlight) (st : HlSt),
      (processHls t b st l).trace = st.trace ∧
        (processHls t b st l).pages = st.pages := by
  intro l
  induction l with
  | nil => intro st; exact ⟨rfl, rfl⟩
  | cons h hs ih =>
    intro st
    unfold processHls
    cases h.updated with
    | none => exact ih st
    | some u =>
      dsimp only
      split
      · exact ⟨rfl, rfl⟩
      · have h1 := hlStep_frame b u st h
        have h2 := ih (hlStep b u st h)
        exact ⟨h2.1.trans h1.1, h2.2.trans h1.2.1⟩

lemma processBooks_frame (t : Int) :
    ∀ (l : List Book) (st : HlSt),
      (processBooks t st l).trace = st.trace ∧
        (processBooks t st l).pages = st.pages := by
  intro l
  induction l with
  | nil => intro st; exact ⟨rfl, rfl⟩
  | cons b bs ih =>
    intro st
    unfold processBooks
    split
    · exact ⟨rfl, rfl⟩
    · have h1 := processHls_frame t b b.highlights st
      have h2 := ih (processHls t b st b.highlights)
      exact ⟨h2.1.trans h1.1, h2.2.trans h1.2⟩

-- ===========================================================================
-- C9: inter-page throttle placement
-- ===========================================================================

lemma processDocs_frame2 (t n : Int) {l : List Doc} {st st' : RunSt}
    {err : Option Failure} (h : processDocs t n st l = (st', err)) :
    st'.trace = st.trace ∧ st'.pages = st.pages := by
  have hf := processDocs_frame t n l st
  rw [h] at hf
  exact hf

lemma processBooks_frame2 (t : Int) {l : List Book} {st st' : HlSt}
    (h : processBooks t st l = st') :
    st'.trace = st.trace ∧ st'.pages = st.pages := by
  have hf := processBooks_frame t l st
  rw [h] at hf
  exact hf

lemma goDocs_delta (pages : Nat → Except Failure DocPage) (target nowDay : Int) :
    ∀ (fuel : Nat) (cursor : Option String) (st : RunSt), 1 ≤ st.pages →
      ∃ d, (goDocs pages target nowDay fuel cursor st).1.trace = st.trace ++ d ∧
        blocksOk d = true := by
  intro fuel
  induction fuel with
  | zero =>
    intro cursor st h
    exact ⟨[], by simp [goDocs], rfl⟩
  | succ n ih =>
    intro cursor st h
    unfold goDocs
    dsimp only
    split
    · exact ⟨[.fetch], by simp, rfl⟩
    · rw [if_pos (by omega : st.pages + 1 > 1)]
      split
      · exact ⟨[.fetch, .sleepPage], by simp, rfl⟩
      · split
        · rename_i st3 f heq
          have hfr := processDocs_frame2 target nowDay heq
          refine ⟨[.fetch, .sleepPage], ?_, rfl⟩
          dsimp only
          rw [hfr.1]
          simp
        · rename_i st3 heq
          have hfr := processDocs_frame2 target nowDay heq
          by_cases hr : st3.reached = true
          · rw [if_pos hr]
            refine ⟨[.fetch, .sleepPage], ?_, rfl⟩
            dsimp only
            rw [hfr.1]
            simp
          · rw [if_neg hr]
            split
            · refine ⟨[.fetch, .sleepPage], ?_, rfl⟩
              dsimp only
              rw [hfr.1]
              simp
            · have hpg : 1 ≤ st3.pages := by
                rw [hfr.2]
                simp
              obtain ⟨d, hd, hb⟩ := ih _ st3 hpg
              refine ⟨.fetch :: .sleepPage :: d, ?_, hb⟩
              rw [hd, hfr.1]
              simp

lemma processBooks_trace_eq (t : Int) (st : HlSt) (l : List Book) :
    (processBooks t st l).trace = st.trace := (processBooks_frame t l st).1

lemma processBooks_pages_eq (t : Int) (st : HlSt) (l : List Book) :
    (processBooks t st l).pages = st.pages := (processBooks_frame t l st).2

lemma goHls_delta (pages : Nat → Except Failure HlPage) (target : Int) :
    ∀ (fuel : Nat) (st : HlSt), 1 ≤ st.pages →
      ∃ d, (goHls pages target fuel st).1.trace = st.trace ++ d ∧
        blocksOk d = true := by
  intro fuel
  induction fuel with
  | zero =>
    intro st h
    exact ⟨[], by simp [goHls], rfl⟩
  | succ n ih =>
    intro st h
    unfold goHls
    dsimp only
    split
    · exact ⟨[.fetch], by simp, rfl⟩
    · rw [if_pos (by omega : st.pages + 1 > 1)]
      split
      · exact ⟨[.fetch, .sleepPage], by simp, rfl⟩
      · split
        · refine ⟨[.fetch, .sleepPage], ?_, rfl⟩
          dsimp only
          rw [processBooks_trace_eq]
          simp
        · split
          · rename_i page heq1 resv hd0 tl0 heq2 hnr hnext
            obtain ⟨d, hd, hb⟩ := ih (processBooks target
                { st with pages := st.pages + 1,
                          trace := st.trace ++ [Effect.fetch] ++ [Effect.sleepPage] }
                page.results) (by rw [processBooks_pages_eq]; simp)
            refine ⟨Effect.fetch :: Effect.sleepPage :: d, ?_, hb⟩
            rw [hd, processBooks_trace_eq]
            simp
          · refine ⟨[.fetch, .sleepPage], ?_, rfl⟩
            dsimp only
            rw [processBooks_trace_eq]
            simp

lemma goDocs_throttle (pages : Nat → Except Failure DocPage)
    (target nowDay : Int) (fuel : Nat) (ids fns : List String) :
    throttleOk ((goDocs pages target nowDay fuel none (initRunSt ids fns)).1.trace) = true := by
  cases fuel with
  | zero => rfl
  | succ n =>
    unfold goDocs
    dsimp only [initRunSt]
    split
    · rfl
    · rw [if_neg (by omega : ¬(0 + 1 > 1))]
      split
      · rfl
      · split
        · rename_i st3 f heq
          have hfr := processDocs_frame2 target nowDay heq
          dsimp only
          rw [hfr.1]
          rfl
        · rename_i st3 heq
          have hfr := processDocs_frame2 target nowDay heq
          by_cases hr : st3.reached = true
          · rw [if_pos hr]
            dsimp only
            rw [hfr.1]
            rfl
          · rw [if_neg hr]
            split
            · dsimp only
              rw [hfr.1]
              rfl
            · have hpg : 1 ≤ st3.pages := by rw [hfr.2]
              obtain ⟨d, hd, hb⟩ := goDocs_delta pages target nowDay n _ st3 hpg
              rw [hd, hfr.1]
              show blocksOk d = true
              exact hb

lemma goHls_throttle (pages : Nat → Except Failure HlPage)
    (target : Int) (fuel : Nat) (ids fns : List String) :
    throttleOk ((goHls pages target fuel (initHlSt ids fns)).1.trace) = true := by
  cases fuel with
  | zero => rfl
  | succ n =>
    unfold goHls
    dsimp only [initHlSt]
    split
    · rfl
    · rw [if_neg (by omega : ¬(0 + 1 > 1))]
      split
      · rfl
      · split
        · dsimp only
          rw [processBooks_trace_eq]
          rfl
        · split
          · rename_i page heq1 resv hd0 tl0 heq2 hnr hnext
            obtain ⟨d, hd, hb⟩ := goHls_delta pages target n (processBooks target
                { imported := 0, skipped := 0, known_ids := ids, known_filenames := fns,
                  saved := [], reached := false, trace := [] ++ [Effect.fetch],
                  pages := 0 + 1 } page.results) (by rw [processBooks_pages_eq])
            rw [hd, processBooks_trace_eq]
            show blocksOk d = true
            exact hb
          · dsimp only
            rw [processBooks_trace_eq]
            rfl

/-- C9, counterexample: in a two-page documents backfill the trace of
effects is fetch, fetch, sleep — the second fetch is not preceded by the
inter-page sleep (the sleep happens after, not before, the fetch of every
page past the first). -/
theorem claim_C9_cex :
    (goDocs (fun i => if i = 0
        then .ok ⟨[⟨"A", none, none, some 0, none⟩], some "c"⟩
        else .ok ⟨[], none⟩) 0 0 100 none (initRunSt [] [])).1.trace =
      [.fetch, .fetch, .sleepPage] ∧
    claimedThrottlePattern ((goDocs (fun i => if i = 0
        then .ok ⟨[⟨"A", none, none, some 0, none⟩], some "c"⟩
        else .ok ⟨[], none⟩) 0 0 100 none (initRunSt [] [])).1.trace) = false := by
  constructor
  · rfl
  · rfl

/-- C9, amended: in every backfill pagination loop (documents or
highlights), no sleep precedes the first fetch and the fixed inter-page
sleep is inserted immediately after — not before — the fetch of every
page after the first (a fetch that raises is not followed by a sleep). -/
theorem claim_C9 :
    (∀ (pages : Nat → Except Failure DocPage) (target nowDay : Int)
       (fuel : Nat) (ids fns : List String),
      throttleOk ((goDocs pages target nowDay fuel none
        (initRunSt ids fns)).1.trace) = true) ∧
    (∀ (pages : Nat → Except Failure HlPage) (target : Int)
       (fuel : Nat) (ids fns : List String),
      throttleOk ((goHls pages target fuel (initHlSt ids fns)).1.trace) = true) :=
  ⟨goDocs_throttle, goHls_throttle⟩

-- ===========================================================================
-- C5: cutoff stops all further item processing
-- ===========================================================================

lemma processDocs_cons (t n : Int) (st : RunSt) (d : Doc) (ds : List Doc) :
    processDocs t n st (d :: ds) =
      match d.saved_at with
      | none => (st, some .badDate)
      | some u =>
        if dateOf u < t then ({ st with reached := true }, none)
        else processDocs t n (docStep n st d) ds := rfl

/-- Everything after the first below-target document is ignored by the
item loop: the tail beyond the cutoff document is irrelevant. -/
lemma processDocs_rest (t n : Int) (bad : Doc) (u : Int)
    (hb : bad.saved_at = some u) (hlt : dateOf u < t) :
    ∀ (pre rA rB : List Doc) (st : RunSt),
      processDocs t n st (pre ++ bad :: rA) =
        processDocs t n st (pre ++ bad :: rB) := by
  intro pre
  induction pre with
  | nil =>
    intro rA rB st
    simp only [List.nil_append]
    rw [processDocs_cons, processDocs_cons, hb]
    dsimp only
    rw [if_pos hlt, if_pos hlt]
  | cons d pre' ih =>
    intro rA rB st
    simp only [List.cons_append]
    rw [processDocs_cons, processDocs_cons]
    rcases hd : d.saved_at with _ | v
    · rfl
    · dsimp only
      by_cases hv : dateOf v < t
      · rw [if_pos hv, if_pos hv]
      · rw [if_neg hv, if_neg hv]
        exact ih rA rB (docStep n st d)

/-- A page containing a below-target document that does not raise ends
with `reached = true`. -/
lemma processDocs_reached2 (t n : Int) (bad : Doc) (u : Int)
    (hb : bad.saved_at = some u) (hlt : dateOf u < t) :
    ∀ (pre r : List Doc) {st st' : RunSt},
      processDocs t n st (pre ++ bad :: r) = (st', none) → st'.reached = true := by
  intro pre
  induction pre with
  | nil =>
    intro r st st' hEq
    rw [List.nil_append, processDocs_cons, hb] at hEq
    dsimp only at hEq
    rw [if_pos hlt] at hEq
    cases hEq
    rfl
  | cons d pre' ih =>
    intro r st st' hEq
    rw [List.cons_append, processDocs_cons] at hEq
    rcases hd : d.saved_at with _ | v
    · rw [hd] at hEq
      exact absurd (congrArg Prod.snd hEq) (by simp)
    · rw [hd] at hEq
      dsimp only at hEq
      by_cases hv : dateOf v < t
      · rw [if_pos hv] at hEq
        cases hEq
        rfl
      · rw [if_neg hv] at hEq
        exact ih r hEq

/-- Two documents backfill runs agree when their environments agree up to
the page carrying the cutoff document: everything after the cutoff — the
rest of that page, its cursor, and every later page — is never looked at. -/
lemma goDocs_agree (target nowDay : Int) (k : Nat)
    (pages pages' : Nat → Except Failure DocPage)
    (hag : ∀ j, j < k → pages j = pages' j)
    (pre : List Doc) (bad : Doc) (u : Int) (rA rB : List Doc)
    (cA cB : Option String)
    (hA : pages k = .ok ⟨pre ++ bad :: rA, cA⟩)
    (hB : pages' k = .ok ⟨pre ++ bad :: rB, cB⟩)
    (hb : bad.saved_at = some u) (hlt : dateOf u < target) :
    ∀ (fuel : Nat) (cursor : Option String) (st : RunSt), st.pages ≤ k →
      goDocs pages target nowDay fuel cursor st =
        goDocs pages' target nowDay fuel cursor st := by
  intro fuel
  induction fuel with
  | zero => intro cursor st h; rfl
  | succ n ih =>
    intro cursor st h
    unfold goDocs
    dsimp only
    rcases Nat.lt_or_ge st.pages k with hk | hk
    · rw [hag st.pages hk]
      split
      · rfl
      · split
        · rfl
        · split
          · rfl
          · rename_i st3 heq
            by_cases hr : st3.reached = true
            · rw [if_pos hr, if_pos hr]
            · rw [if_neg hr, if_neg hr]
              split
              · rfl
              · have hfr := processDocs_frame2 target nowDay heq
                apply ih
                rw [hfr.2]
                simp only [apply_ite RunSt.pages, ite_self]
                omega
    · have hek : st.pages = k := Nat.le_antisymm h hk
      rw [hek, hA, hB]
      dsimp only
      rcases hcA : pre ++ bad :: rA with _ | ⟨x, xs⟩
      · simp at hcA
      · rcases hcB : pre ++ bad :: rB with _ | ⟨y, ys⟩
        · simp at hcB
        · dsimp only
          rw [← hcA, ← hcB,
            processDocs_rest target nowDay bad u hb hlt pre rA rB]
          split
          · rfl
          · rename_i st3 heq
            have hr3 := processDocs_reached2 target nowDay bad u hb hlt pre rB heq
            rw [if_pos hr3, if_pos hr3]

lemma hlStep_congr (b b' : Book)
    (hm1 : b'.title = b.title) (hm2 : b'.author = b.author)
    (hm3 : b'.category = b.category) (hm4 : b'.source_url = b.source_url)
    (u : Int) (st : HlSt) (h : Highlight) :
    hlStep b u st h = hlStep b' u st h := by
  unfold hlStep enrich
  rw [hm1, hm2, hm3, hm4]

lemma processHls_congr (t : Int) (b b' : Book)
    (hm1 : b'.title = b.title) (hm2 : b'.author = b.author)
    (hm3 : b'.category = b.category) (hm4 : b'.source_url = b.source_url) :
    ∀ (l : List Highlight) (st : HlSt),
      processHls t b st l = processHls t b' st l := by
  intro l
  induction l with
  | nil => intro st; rfl
  | cons h hs ih =>
    intro st
    unfold processHls
    rcases hu : h.updated with _ | v
    · exact ih st
    · dsimp only
      by_cases hv : dateOf v < t
      · rw [if_pos hv, if_pos hv]
      · rw [if_neg hv, if_neg hv, hlStep_congr b b' hm1 hm2 hm3 hm4]
        exact ih (hlStep b' v st h)

lemma processHls_cons (t : Int) (b : Book) (st : HlSt) (h : Highlight)
    (hs : List Highlight) :
    processHls t b st (h :: hs) =
      match h.updated with
      | none => processHls t b st hs
      | some v =>
        if dateOf v < t then { st with reached := true }
        else processHls t b (hlStep b v st h) hs := rfl

/-- Everything after the first below-target highlight of a book is
ignored. -/
lemma processHls_rest (t : Int) (b : Book) (bad : Highlight) (u : Int)
    (hb : bad.updated = some u) (hlt : dateOf u < t) :
    ∀ (pre rA rB : List Highlight) (st : HlSt),
      processHls t b st (pre ++ bad :: rA) =
        processHls t b st (pre ++ bad :: rB) := by
  intro pre
  induction pre with
  | nil =>
    intro rA rB st
    simp only [List.nil_append]
    rw [processHls_cons, processHls_cons, hb]
    dsimp only
    rw [if_pos hlt, if_pos hlt]
  | cons h pre' ih =>
    intro rA rB st
    simp only [List.cons_append]
    rw [processHls_cons, processHls_cons]
    rcases hu : h.updated with _ | v
    · exact ih rA rB st
    · dsimp only
      by_cases hv : dateOf v < t
      · rw [if_pos hv, if_pos hv]
      · rw [if_neg hv, if_neg hv]
        exact ih rA rB (hlStep b v st h)

/-- A book containing a below-target highlight always ends with
`reached = true`. -/
lemma processHls_reached_true (t : Int) (b : Book) (bad : Highlight) (u : Int)
    (hb : bad.updated = some u) (hlt : dateOf u < t) :
    ∀ (pre r : List Highlight) (st : HlSt),
      (processHls t b st (pre ++ bad :: r)).reached = true := by
  intro pre
  induction pre with
  | nil =>
    intro r st
    simp only [List.nil_append]
    rw [processHls_cons, hb]
    dsimp only
    rw [if_pos hlt]
  | cons h pre' ih =>
    intro r st
    simp only [List.cons_append]
    rw [processHls_cons]
    rcases hu : h.updated with _ | v
    · exact ih r st
    · dsimp only
      by_cases hv : dateOf v < t
      · rw [if_pos hv]
      · rw [if_neg hv]
        exact ih r (hlStep b v st h)

/-- Once the cutoff is hit, the book loop skips every remaining book. -/
lemma processBooks_stable (t : Int) {st : HlSt} (h : st.reached = true) :
    ∀ (l : List Book), processBooks t st l = st := by
  intro l
  cases l with
  | nil => rfl
  | cons b bs =>
    unfold processBooks
    rw [if_pos h]

lemma processBooks_cons (t : Int) (st : HlSt) (b : Book) (bs : List Book) :
    processBooks t st (b :: bs) =
      if st.reached then st
      else processBooks t (processHls t b st b.highlights) bs := rfl

/-- Everything after the cutoff highlight — the rest of its book, and all
later books of the page — is irrelevant to the book loop. -/
lemma processBooks_rest (t : Int) (b b' : Book)
    (hm1 : b'.title = b.title) (hm2 : b'.author = b.author)
    (hm3 : b'.category = b.category) (hm4 : b'.source_url = b.source_url)
    (preH : List Highlight) (bad : Highlight) (u : Int)
    (rHA rHB : List Highlight)
    (hbH : b.highlights = preH ++ bad :: rHA)
    (hbH' : b'.highlights = preH ++ bad :: rHB)
    (hb : bad.updated = some u) (hlt : dateOf u < t)
    (preB restA restB : List Book) :
    ∀ (st : HlSt),
      processBooks t st (preB ++ b :: restA) =
        processBooks t st (preB ++ b' :: restB) := by
  induction preB with
  | nil =>
    intro st
    simp only [List.nil_append]
    rw [processBooks_cons, processBooks_cons]
    by_cases hr : st.reached = true
    · rw [if_pos hr, if_pos hr]
    · rw [if_neg hr, if_neg hr]
      have h1 : processHls t b st b.highlights = processHls t b' st b'.highlights := by
        rw [hbH, hbH', processHls_rest t b bad u hb hlt preH rHA rHB st,
          processHls_congr t b b' hm1 hm2 hm3 hm4]
      rw [h1]
      have h2 : (processHls t b' st b'.highlights).reached = true := by
        rw [hbH', ← processHls_congr t b b' hm1 hm2 hm3 hm4]
        exact processHls_reached_true t b bad u hb hlt preH rHB st
      rw [processBooks_stable t h2, processBooks_stable t h2]
  | cons b0 preB' ih =>
    intro st
    simp only [List.cons_append]
    rw [processBooks_cons, processBooks_cons]
    by_cases hr : st.reached = true
    · rw [if_pos hr, if_pos hr]
    · rw [if_neg hr, if_neg hr]
      exact ih (processHls t b0 st b0.highlights)

/-- A page whose books contain a below-target highlight ends with
`reached = true`. -/
lemma processBooks_reached_cutoff (t : Int) (b : Book)
    (preH : List Highlight) (bad : Highlight) (u : Int) (rH : List Highlight)
    (hbH : b.highlights = preH ++ bad :: rH)
    (hb : bad.updated = some u) (hlt : dateOf u < t)
    (preB restA : List Book) :
    ∀ (st : HlSt), (processBooks t st (preB ++ b :: restA)).reached = true := by
  induction preB with
  | nil =>
    intro st
    simp only [List.nil_append]
    rw [processBooks_cons]
    by_cases hr : st.reached = true
    · rw [if_pos hr]
      exact hr
    · rw [if_neg hr]
      have h2 : (processHls t b st b.highlights).reached = true := by
        rw [hbH]
        exact processHls_reached_true t b bad u hb hlt preH rH st
      rw [processBooks_stable t h2]
      exact h2
  | cons b0 preB' ih =>
    intro st
    simp only [List.cons_append]
    rw [processBooks_cons]
    by_cases hr : st.reached = true
    · rw [if_pos hr]
      exact hr
    · rw [if_neg hr]
      exact ih (processHls t b0 st b0.highlights)

/-- Two highlights backfill runs agree when their environments agree up to
the page carrying the cutoff highlight: the rest of its book, the later
books of that page, its `next` link, and every later page are never
looked at. -/
lemma goHls_agree (target : Int) (k : Nat)
    (pages pages' : Nat → Except Failure HlPage)
    (hag : ∀ j, j < k → pages j = pages' j)
    (preB : List Book) (b b' : Book)
    (hm1 : b'.title = b.title) (hm2 : b'.author = b.author)
    (hm3 : b'.category = b.category) (hm4 : b'.source_url = b.source_url)
    (preH : List Highlight) (bad : Highlight) (u : Int)
    (rHA rHB : List Highlight)
    (hbH : b.highlights = preH ++ bad :: rHA)
    (hbH' : b'.highlights = preH ++ bad :: rHB)
    (hb : bad.updated = some u) (hlt : dateOf u < target)
    (restA restB : List Book) (nA nB : Bool)
    (hA : pages k = .ok ⟨preB ++ b :: restA, nA⟩)
    (hB : pages' k = .ok ⟨preB ++ b' :: restB, nB⟩) :
    ∀ (fuel : Nat) (st : HlSt), st.pages ≤ k →
      goHls pages target fuel st = goHls pages' target fuel st := by
  intro fuel
  induction fuel with
  | zero => intro st h; rfl
  | succ n ih =>
    intro st h
    unfold goHls
    dsimp only
    rcases Nat.lt_or_ge st.pages k with hk | hk
    · rw [hag st.pages hk]
      split
      · rfl
      · split
        · rfl
        · split
          · split
            · rfl
            · split
              · apply ih
                rw [processBooks_pages_eq]
                show st.pages + 1 ≤ k
                omega
              · rfl
          · split
            · rfl
            · split
              · apply ih
                rw [processBooks_pages_eq]
                show st.pages + 1 ≤ k
                omega
              · rfl
    · have hek : st.pages = k := Nat.le_antisymm h hk
      rw [hek, hA, hB]
      dsimp only
      rcases hcA : preB ++ b :: restA with _ | ⟨x, xs⟩
      · simp at hcA
      · rcases hcB : preB ++ b' :: restB with _ | ⟨y, ys⟩
        · simp at hcB
        · try dsimp only
          rw [← hcA, ← hcB,
            processBooks_rest target b b' hm1 hm2 hm3 hm4 preH bad u rHA rHB
              hbH hbH' hb hlt preB restA restB,
            processBooks_reached_cutoff target b' preH bad u rHB hbH' hb hlt
              preB restB]
          simp

/-- C5: in both backfill engines, the first item whose calendar date is
strictly before the target flips the cutoff flag and nothing after it is
processed — the run's entire outcome (result and state) is unchanged no
matter what fills the rest of that page or any subsequent page. -/
theorem claim_C5 :
    (∀ (pages pages' : Nat → Except Failure DocPage) (now : Int)
       (ids fns : List String) (k : Nat) (pre : List Doc) (bad : Doc) (u : Int)
       (rA rB : List Doc) (cA cB : Option String) (target : Int)
       (st0 : StateFile),
      (∀ j, j < k → pages j = pages' j) →
      pages k = .ok ⟨pre ++ bad :: rA, cA⟩ →
      pages' k = .ok ⟨pre ++ bad :: rB, cB⟩ →
      bad.saved_at = some u → dateOf u < target →
      readwise_backfill ⟨pages, now, ids, fns⟩ (some target) st0 =
        readwise_backfill ⟨pages', now, ids, fns⟩ (some target) st0) ∧
    (∀ (pages pages' : Nat → Except Failure HlPage) (now : Int)
       (ids fns : List String) (k : Nat) (preB : List Book) (b b' : Book)
       (preH : List Highlight) (bad : Highlight) (u : Int)
       (rHA rHB : List Highlight) (restA restB : List Book) (nA nB : Bool)
       (target : Int) (st0 : StateFile),
      (∀ j, j < k → pages j = pages' j) →
      b'.title = b.title → b'.author = b.author → b'.category = b.category →
      b'.source_url = b.source_url →
      b.highlights = preH ++ bad :: rHA → b'.highlights = preH ++ bad :: rHB →
      pages k = .ok ⟨preB ++ b :: restA, nA⟩ →
      pages' k = .ok ⟨preB ++ b' :: restB, nB⟩ →
      bad.updated = some u → dateOf u < target →
      readwise_backfill_highlights ⟨pages, now, ids, fns⟩ (some target) st0 =
        readwise_backfill_highlights ⟨pages', now, ids, fns⟩ (some target) st0) := by
  constructor
  · intro pages pages' now ids fns k pre bad u rA rB cA cB target st0
      hag hA hB hb hlt
    unfold readwise_backfill
    dsimp only
    split
    · rfl
    · rw [goDocs_agree target (dateOf now) k pages pages' hag pre bad u rA rB
        cA cB hA hB hb hlt 100 none (initRunSt ids fns) (Nat.zero_le k)]
  · intro pages pages' now ids fns k preB b b' preH bad u rHA rHB restA restB
      nA nB target st0 hag hm1 hm2 hm3 hm4 hbH hbH' hA hB hb hlt
    unfold readwise_backfill_highlights
    dsimp only
    split
    · rfl
    · rw [goHls_agree target k pages pages' hag preB b b' hm1 hm2 hm3 hm4
        preH bad u rHA rHB hbH hbH' hb hlt restA restB nA nB hA hB 999
        (initHlSt ids fns) (Nat.zero_le k)]

theorem claim_C5_witness :
    ((⟨"B", none, none, some (-86400), none⟩ : Doc).saved_at = some (-86400)) ∧
    dateOf (-86400) < 0 ∧
    readwise_backfill
        ⟨fun _ => .ok ⟨[⟨"B", none, none, some (-86400), none⟩], none⟩, 9, [], []⟩
        (some 0) ⟨1, [], false, some ⟨2, [], false⟩, none⟩ =
      readwise_backfill
        ⟨fun _ => .ok ⟨[⟨"B", none, none, some (-86400), none⟩,
            ⟨"C", none, none, some 0, none⟩], some "x"⟩, 9, [], []⟩
        (some 0) ⟨1, [], false, some ⟨2, [], false⟩, none⟩ :=
  ⟨rfl, by decide,
    claim_C5.1
      (fun _ => .ok ⟨[⟨"B", none, none, some (-86400), none⟩], none⟩)
      (fun _ => .ok ⟨[⟨"B", none, none, some (-86400), none⟩,
          ⟨"C", none, none, some 0, none⟩], some "x"⟩)
      9 [] [] 0 [] ⟨"B", none, none, some (-86400), none⟩ (-86400)
      [] [⟨"C", none, none, some 0, none⟩] none (some "x") 0
      ⟨1, [], false, some ⟨2, [], false⟩, none⟩
      (fun j hj => absurd hj (Nat.not_lt_zero j)) rfl rfl rfl (by decide)⟩
